import Mathlib

/-!
Verification development for the event core of `src/node_events.cc`
(EventEmitter::Emit, EventSource::_MakeCallback / MakeCallback /
PrintStack / Active / Inactive / RecordStack / ClearStack / DeleteParent).

The C++ is shallowly embedded: V8 handles become first-order Lean data,
the V8 `Call` of a listener becomes a record of "which callable ran, did
it throw, what did it return, how did it mutate the live registry", and
the process-global state (`current_source`, the cached `tick_cb` and
`process` persistents) becomes an explicit state record threaded through
the definitions.
-/

namespace NodeEvents

/-! ## Listener model for `EventEmitter::Emit`

A listener callable is modelled by its identity, whether its invocation
leaves an exception in the `TryCatch` (`throws`), and the mutation it
performs on the live listener registry (`_events[event]`) while running.
The mutation is first-order: do nothing, remove the first listener with a
given id, or append a fresh listener.  An appended listener itself does
nothing when (and if) it is ever invoked. -/

inductive RegAction where
  | keep
  | removeId (k : Nat)
  | appendId (k : Nat) (t : Bool)
deriving Repr, DecidableEq

structure Cb where
  id : Nat
  throws : Bool
  act : RegAction
deriving Repr, DecidableEq

/-- One element of the listener array: `listeners->Get(i)` is either a
function (`IsFunction()`) or some non-callable value that the loop skips
with `continue`. -/
inductive ArrElem where
  | nonFn
  | fn (c : Cb)
deriving Repr, DecidableEq

/-- Remove the first callable with id `k` from the live registry (what a
`removeListener` performed by a running listener does to `_events[event]`). -/
def removeFirstFn (k : Nat) : List ArrElem → List ArrElem
  | [] => []
  | .nonFn :: rest => .nonFn :: removeFirstFn k rest
  | .fn c :: rest => if c.id = k then rest else .fn c :: removeFirstFn k rest

/-- Effect of one listener invocation on the live registry. -/
def applyAct : RegAction → List ArrElem → List ArrElem
  | .keep, reg => reg
  | .removeId k, reg => removeFirstFn k reg
  | .appendId k t, reg => reg ++ [.fn ⟨k, t, .keep⟩]

/-- Thread the registry mutations of the callable elements of a list, in
order (the cumulative effect on `_events[event]` of running them all). -/
def threadActions : List ArrElem → List ArrElem → List ArrElem
  | [], reg => reg
  | .nonFn :: rest, reg => threadActions rest reg
  | .fn c :: rest, reg => threadActions rest (applyAct c.act reg)

/-- The value stored for the event name in the `_events` object:
`listeners_v` is a function, an array, or anything else (including the
`undefined` produced by a missing property). -/
inductive ListVal where
  | fnVal (c : Cb)
  | arrVal (xs : List ArrElem)
  | otherVal
deriving Repr, DecidableEq

/-- The value of `handle_->Get(events_symbol)`: either not an object
(`Emit` returns false at once) or an object mapping event names to
stored listener values. -/
inductive EventsVal where
  | notObject
  | objVal (table : List (String × ListVal))
deriving Repr, DecidableEq

/-- `events->Get(event)`: property lookup; an absent property reads as
`undefined`, i.e. `otherVal`. -/
def getEvent (table : List (String × ListVal)) (event : String) : ListVal :=
  match table.find? (fun p => p.1 == event) with
  | some p => p.2
  | none => .otherVal

/-- Observable outcome of one `Emit` call: the returned boolean, the ids
of the listeners actually invoked in order, the ids whose unhandled error
was reported through `FatalException`, and (for the array branch) the
final state of the live registry after the listeners' mutations. -/
structure EmitOut where
  result : Bool
  calls : List Nat
  reported : List Nat
  finalReg : Option (List ArrElem)
deriving Repr, DecidableEq

/-- The `for` loop of `EventEmitter::Emit` over the **cloned** array.
First argument: the remaining snapshot (the clone, never mutated).
Second argument: the live registry, mutated by the listeners but never
read by the iteration.  Non-callable entries are skipped (`continue`);
a caught exception reports via `FatalException` and returns false
immediately, abandoning the rest of the snapshot. -/
def emitLoop : List ArrElem → List ArrElem → EmitOut
  | [], reg => ⟨true, [], [], some reg⟩
  | .nonFn :: rest, reg => emitLoop rest reg
  | .fn c :: rest, reg =>
    let reg' := applyAct c.act reg
    if c.throws then ⟨false, [c.id], [c.id], some reg'⟩
    else
      let o := emitLoop rest reg'
      ⟨o.result, c.id :: o.calls, o.reported, o.finalReg⟩

/-- The optimized one-listener branch of `Emit` (`listeners_v->IsFunction()`). -/
def emitFn (c : Cb) : EmitOut :=
  if c.throws then ⟨false, [c.id], [c.id], none⟩ else ⟨true, [c.id], [], none⟩

namespace EventEmitter

/-- `EventEmitter::Emit(event, argc, argv)`.  Mirrors the source: if
`_events` is not an object, return false; otherwise branch on the stored
value: function → one call; array → clone then iterate the clone
(`emitLoop xs xs`: the snapshot and the live registry start equal);
anything else → false.  After a completed array loop the code falls
through to `return true`. -/
def Emit (events_v : EventsVal) (event : String) : EmitOut :=
  match events_v with
  | .notObject => ⟨false, [], [], none⟩
  | .objVal table =>
    match getEvent table event with
    | .fnVal c => emitFn c
    | .arrVal xs => emitLoop xs xs
    | .otherVal => ⟨false, [], [], none⟩

end EventEmitter

/-- Ids of the callable elements of a listener array, in order. -/
def callableIds : List ArrElem → List Nat
  | [] => []
  | .nonFn :: rest => callableIds rest
  | .fn c :: rest => c.id :: callableIds rest

/-! ## EventSource state: `trace_`, `parent_source_`, refcount

One `v8::StackFrame` of a captured `v8::StackTrace`: the fields
`PrintStack` reads (function name, script name, line number, column). -/

structure Frame where
  functionName : String
  scriptName : String
  lineNumber : Int
  column : Int
deriving Repr, DecidableEq

/-- The native-side state of one `EventSource`:
`trace_` (a `Persistent<StackTrace>`, empty or holding a frame list) and
`parent_source_` (a `Persistent<Object>` handle to the parent's wrapped
object, empty or set).  The empty/set parent handle is encoded by the
two constructors; `refs` is the wrapper's external reference count
(`ObjectWrap::refs_`), carried as an integer.  The parent is stored by
value: for the claims below only its field contents matter, not handle
identity. -/
inductive EventSource : Type where
  | root (trace : Option (List Frame)) (refs : Int)
  | withParent (trace : Option (List Frame)) (parent : EventSource) (refs : Int)
deriving Repr, DecidableEq

namespace EventSource

/-- The `trace_` field. -/
def trace_ : EventSource → Option (List Frame)
  | .root t _ => t
  | .withParent t _ _ => t

/-- The `parent_source_` field, viewed as empty-or-set. -/
def parent_source_ : EventSource → Option EventSource
  | .root _ _ => none
  | .withParent _ p _ => some p

/-- The wrapper's external reference count. -/
def refs_ : EventSource → Int
  | .root _ r => r
  | .withParent _ _ r => r

/-- Overwrite the `trace_` field. -/
def setTrace : EventSource → Option (List Frame) → EventSource
  | .root _ r, t => .root t r
  | .withParent _ p r, t => .withParent t p r

/-- `EventSource::ClearStack`: if `trace_` is non-empty, dispose and
clear it; otherwise nothing happens. -/
def ClearStack (s : EventSource) : EventSource :=
  match s.trace_ with
  | none => s
  | some _ => s.setTrace none

/-- `EventSource::DeleteParent`: if `parent_source_` is non-empty, clear
the weak registration, dispose and clear the handle; otherwise no-op. -/
def DeleteParent : EventSource → EventSource
  | .root t r => .root t r
  | .withParent t _ r => .root t r

/-- Modelled from the spec: `ObjectWrap::Ref` lives in `node.h` /
`node_object_wrap.h`, which is not under `src/`; the spec says Active
"increments the host object's external reference count", so `Ref` is an
increment. -/
def Ref : EventSource → EventSource
  | .root t r => .root t (r + 1)
  | .withParent t p r => .withParent t p (r + 1)

/-- Modelled from the spec: `ObjectWrap::Unref` is not under `src/`; the
spec says Inactive "restores the normal count", so `Unref` is a
decrement. -/
def Unref : EventSource → EventSource
  | .root t r => .root t (r - 1)
  | .withParent t p r => .withParent t p (r - 1)

/-- `EventSource::RecordStack`: `ClearStack()`, capture the current
stack trace (`tr`, supplied by the environment) into `trace_`, then, if
a source is current, `parent_source_ = Persistent::New(current->handle_)`
plus `MakeWeak` — note the plain assignment: a previously set
`parent_source_` handle is overwritten without being disposed, and when
no source is current the old parent handle is left in place. -/
def RecordStack (s : EventSource) (tr : List Frame) (cur : Option EventSource) :
    EventSource :=
  let s1 := (s.ClearStack).setTrace (some tr)
  match cur with
  | some c =>
    match s1 with
    | .root t r => .withParent t c r
    | .withParent t _ r => .withParent t c r
  | none => s1

/-- `EventSource::Active`: `Ref(); RecordStack();`. -/
def Active (s : EventSource) (tr : List Frame) (cur : Option EventSource) :
    EventSource :=
  (s.Ref).RecordStack tr cur

/-- `EventSource::Inactive`: `DeleteParent(); ClearStack(); Unref();`. -/
def Inactive (s : EventSource) : EventSource :=
  ((s.DeleteParent).ClearStack).Unref

/-- `EventSource::WeakParent` (the weak-handle notification): asserts
the collected object is the stored parent, then `DeleteParent`. -/
def WeakParent (s : EventSource) : EventSource :=
  s.DeleteParent

end EventSource

/-! ## `PrintStack` output -/

/-- One `fprintf(stderr, ...)` of `PrintStack`: the separator line
`    ---------------------------` or one frame line
`    at <function> (<script>:<line>:<column>)`. -/
inductive OutLine where
  | separator
  | frameLine (functionName scriptName : String) (lineNumber column : Int)
deriving Repr, DecidableEq

/-- `EventSource::PrintStack(count)`: no-op when `trace_` is empty;
otherwise print the separator and every frame of this source's trace,
then, if `parent_source_` is set and `count` is below the ancestor
limit, recurse into the parent with `count + 1`.

Modelled from the spec: the constant `kAncestorStackLimit` is declared
in `node_events.h`, which is not under `src/`; the spec fixes only that
it is "a fixed ancestor limit", so it is the parameter `limit` here. -/
def EventSource.PrintStack (limit : Nat) : EventSource → Nat → List OutLine
  | .root none _, _ => []
  | .withParent none _ _, _ => []
  | .root (some tr) _, _ =>
    OutLine.separator ::
      tr.map (fun f => OutLine.frameLine f.functionName f.scriptName f.lineNumber f.column)
  | .withParent (some tr) parent _, count =>
    let own := OutLine.separator ::
      tr.map (fun f => OutLine.frameLine f.functionName f.scriptName f.lineNumber f.column)
    if count < limit then own ++ EventSource.PrintStack limit parent (count + 1) else own

/-- Number of stack sections in a `PrintStack` output (one separator is
printed per section). -/
def countSections (ls : List OutLine) : Nat :=
  ls.countP (fun l => match l with | .separator => true | _ => false)

/-- A causal chain of `n + 1` sources, each with a recorded trace `tr`:
`mkChain tr n` is the innermost source and has `n` ancestors. -/
def mkChain (tr : List Frame) : Nat → EventSource
  | 0 => .root (some tr) 0
  | n + 1 => .withParent (some tr) (mkChain tr n) 0

/-! ## `_MakeCallback` / `MakeCallback` and the process-global state -/

/-- A JavaScript function as the native code observes it: an identity,
whether calling it leaves an exception in the `TryCatch`, and the value
it returns when it does not throw. -/
structure JsFn where
  id : Nat
  throws : Bool
  retVal : Nat
deriving Repr, DecidableEq

/-- A JavaScript value tested with `IsFunction()`. -/
inductive JsVal where
  | fn (f : JsFn)
  | nonFn
deriving Repr, DecidableEq

/-- The process-global mutable state the two MakeCallback functions
touch: `EventSource::current_source` (identified by the source's id),
the cached `tick_cb` persistent, and whether the `process` persistent
has been populated. -/
structure NodeState where
  current_source : Option Nat
  tick_cb : Option JsFn
  processCached : Bool
deriving Repr, DecidableEq

/-- Outcome of one `_MakeCallback` invocation.  `assertAbort`: the entry
assertion `assert(current_source == NULL)` failed, the callback never
ran.  `fatal st`: the callee threw; `st` is the global state at the
moment `ReportException` / `PrintStack` / `exit(1)` run (the restore of
`current_source` has already happened).  `ok ret st`: normal return of
`ret` with post-state `st`. -/
inductive MCOut where
  | assertAbort
  | fatal (st : NodeState)
  | ok (ret : Nat) (st : NodeState)
deriving Repr, DecidableEq

/-- Observable trace of one `_MakeCallback` invocation: whether the
callee was invoked at all, the value of `current_source` while the
callee ran (`none` when it never ran), and the outcome. -/
structure MCTrace where
  calleeRan : Bool
  observed : Option Nat
  out : MCOut
deriving Repr, DecidableEq

/-- Post-state of an `_MakeCallback` outcome, when control reaches one
(the state `ReportException`/`PrintStack` see, resp. the state at normal
return). -/
def MCOut.stateAfter : MCOut → Option NodeState
  | .assertAbort => none
  | .fatal st => some st
  | .ok _ st => some st

namespace EventSource

/-- `EventSource::_MakeCallback(cb, target, argc, argv)` for the source
with id `sid`: `assert(current_source == NULL)`; `current_source = this`;
`cb->Call(target, argc, argv)`; `current_source = NULL`; then the caught
exception, if any, is reported (`ReportException`, `PrintStack`,
`exit(1)`), else the callee's value is returned.  The callee is opaque:
it observes `current_source` and either returns `cb.retVal` or throws. -/
def _MakeCallback (sid : Nat) (cb : JsFn) (st : NodeState) : MCTrace :=
  match st.current_source with
  | some _ => ⟨false, none, .assertAbort⟩
  | none =>
    let stDuring : NodeState := { st with current_source := some sid }
    let stAfter : NodeState := { stDuring with current_source := none }
    if cb.throws then ⟨true, stDuring.current_source, .fatal stAfter⟩
    else ⟨true, stDuring.current_source, .ok cb.retVal stAfter⟩

end EventSource

/-- Outcome of one `MakeCallback` invocation.  `emptyNoCall`: the
`callback` property was not a function, an empty handle is returned and
nothing ran.  `tickAssertAbort st`: `process._tickCallback` did not
resolve to a function — `fprintf` then `assert(0)` (`st` records that
the `process` persistent was populated first).  The other constructors
are inherited from `_MakeCallback`. -/
inductive MKOut where
  | emptyNoCall
  | assertAbort
  | fatal (st : NodeState)
  | tickAssertAbort (st : NodeState)
  | ok (ret : Nat) (st : NodeState)
deriving Repr, DecidableEq

/-- Observable trace of one `MakeCallback` invocation: outcome, whether
the wrapped `callback` ran, the `argc` of each drain (`tick_cb`)
invocation performed, and whether the global `process._tickCallback`
lookup was performed. -/
structure MKTrace where
  out : MKOut
  cbRan : Bool
  drainArgcs : List Nat
  lookedUp : Bool
deriving Repr, DecidableEq

namespace EventSource

/-- The tick-drain step of `MakeCallback`:
`ret = _MakeCallback(tick_cb, process, 0, NULL)` — note the argc of 0
and that `ret` is **reassigned** to the drain's return value. -/
def drainStep (sid : Nat) (t : JsFn) (st : NodeState) (lookedUp : Bool) : MKTrace :=
  let m := _MakeCallback sid t st
  match m.out with
  | .assertAbort => ⟨.assertAbort, true, [], lookedUp⟩
  | .fatal stH => ⟨.fatal stH, true, [0], lookedUp⟩
  | .ok ret2 st2 => ⟨.ok ret2 st2, true, [0], lookedUp⟩

/-- `EventSource::MakeCallback(argc, argv)` for the source with id
`sid`.  `callback_v` is `handle_->Get("callback")`; `globalTick` is what
the lookup `global.process._tickCallback` would find.  Mirrors the
source: not a function → empty handle, nothing invoked; otherwise
`ret = _MakeCallback(callback, handle_, argc, argv)`; if that returned a
(necessarily non-empty) handle, lazily resolve and cache `process` and
`tick_cb` when either persistent is still empty — asserting if the
lookup is not a function — and finally reassign `ret` to the drain
invocation's result. -/
def MakeCallback (sid : Nat) (callback_v : JsVal) (globalTick : JsVal)
    (st : NodeState) : MKTrace :=
  match callback_v with
  | .nonFn => ⟨.emptyNoCall, false, [], false⟩
  | .fn cb =>
    let m := _MakeCallback sid cb st
    match m.out with
    | .assertAbort => ⟨.assertAbort, false, [], false⟩
    | .fatal stH => ⟨.fatal stH, true, [], false⟩
    | .ok _ st1 =>
      match st1.tick_cb, st1.processCached with
      | some t, true => drainStep sid t st1 false
      | some _, false =>
        match globalTick with
        | .nonFn => ⟨.tickAssertAbort { st1 with processCached := true }, true, [], true⟩
        | .fn tf =>
          drainStep sid tf { st1 with tick_cb := some tf, processCached := true } true
      | none, _ =>
        match globalTick with
        | .nonFn => ⟨.tickAssertAbort { st1 with processCached := true }, true, [], true⟩
        | .fn tf =>
          drainStep sid tf { st1 with tick_cb := some tf, processCached := true } true

end EventSource

/-- An array element that does not throw when invoked (non-callables
trivially qualify: they are never invoked). -/
def noThrowElem : ArrElem → Prop
  | .nonFn => True
  | .fn c => c.throws = false

instance : DecidablePred noThrowElem := fun v =>
  match v with
  | .nonFn => isTrue trivial
  | .fn c => (inferInstance : Decidable (c.throws = false))

/-! ## Theorems -/

theorem getEvent_single (e : String) (lv : ListVal) : getEvent [(e, lv)] e = lv := by
  simp [getEvent, List.find?]

theorem emitLoop_nothrow (xs : List ArrElem) :
    ∀ reg, (∀ v ∈ xs, noThrowElem v) →
      (emitLoop xs reg).result = true ∧ (emitLoop xs reg).calls = callableIds xs ∧
      (emitLoop xs reg).reported = [] := by
  induction xs with
  | nil => intro reg _; simp [emitLoop, callableIds]
  | cons v rest ih =>
    intro reg h
    match v with
    | .nonFn =>
      simpa [emitLoop, callableIds] using
        ih reg (fun w hw => h w (List.mem_cons_of_mem _ hw))
    | .fn c =>
      have hc : c.throws = false := h (.fn c) (List.mem_cons_self _ _)
      have hrest := ih (applyAct c.act reg) (fun w hw => h w (List.mem_cons_of_mem _ hw))
      simp [emitLoop, callableIds, hc, hrest.1, hrest.2.1, hrest.2.2]

theorem emitLoop_fatal (pre : List ArrElem) :
    ∀ reg (c : Cb) (post : List ArrElem), c.throws = true →
      (∀ v ∈ pre, noThrowElem v) →
      (emitLoop (pre ++ .fn c :: post) reg).result = false ∧
      (emitLoop (pre ++ .fn c :: post) reg).calls = callableIds pre ++ [c.id] ∧
      (emitLoop (pre ++ .fn c :: post) reg).reported = [c.id] := by
  induction pre with
  | nil => intro reg c post hc _; simp [emitLoop, callableIds, hc]
  | cons v rest ih =>
    intro reg c post hc h
    match v with
    | .nonFn =>
      simpa [emitLoop, callableIds] using
        ih reg c post hc (fun w hw => h w (List.mem_cons_of_mem _ hw))
    | .fn d =>
      have hd : d.throws = false := h (.fn d) (List.mem_cons_self _ _)
      have hrest := ih (applyAct d.act reg) c post hc
        (fun w hw => h w (List.mem_cons_of_mem _ hw))
      simp [emitLoop, callableIds, hd, hrest.1, hrest.2.1, hrest.2.2]

theorem emitLoop_allNonFn (xs : List ArrElem) :
    ∀ reg, (∀ v ∈ xs, v = ArrElem.nonFn) →
      emitLoop xs reg = ⟨true, [], [], some reg⟩ := by
  induction xs with
  | nil => intro reg _; simp [emitLoop]
  | cons v rest ih =>
    intro reg h
    have hv : v = ArrElem.nonFn := h v (List.mem_cons_self _ _)
    subst hv
    simpa [emitLoop] using ih reg (fun w hw => h w (List.mem_cons_of_mem _ hw))

/-- Claim C4: in the array branch of `Emit`, if a listener raises an
unhandled error then `Emit` reports exactly that error, returns false
immediately, and invokes none of the listeners after it in the snapshot
— the call list is exactly the callables before it plus the thrower
itself, so the remaining part `post` of the snapshot contributes no
invocation. -/
theorem emit_fatal_abandons_rest (e : String) (pre post : List ArrElem) (c : Cb)
    (hc : c.throws = true) (hpre : ∀ v ∈ pre, noThrowElem v) :
    (EventEmitter.Emit (.objVal [(e, .arrVal (pre ++ .fn c :: post))]) e).result = false ∧
    (EventEmitter.Emit (.objVal [(e, .arrVal (pre ++ .fn c :: post))]) e).calls
      = callableIds pre ++ [c.id] ∧
    (EventEmitter.Emit (.objVal [(e, .arrVal (pre ++ .fn c :: post))]) e).reported
      = [c.id] := by
  have h := emitLoop_fatal pre (pre ++ .fn c :: post) c post hc hpre
  simpa [EventEmitter.Emit, getEvent_single] using h

theorem emit_fatal_abandons_rest_witness :
    (EventEmitter.Emit
        (.objVal [("x", .arrVal [.fn ⟨1, false, .keep⟩, .fn ⟨2, true, .keep⟩,
          .fn ⟨3, false, .keep⟩])]) "x").calls = [1, 2] ∧
    (EventEmitter.Emit
        (.objVal [("x", .arrVal [.fn ⟨1, false, .keep⟩, .fn ⟨2, true, .keep⟩,
          .fn ⟨3, false, .keep⟩])]) "x").result = false :=
  ⟨(emit_fatal_abandons_rest "x" [.fn ⟨1, false, .keep⟩] [.fn ⟨3, false, .keep⟩]
      ⟨2, true, .keep⟩ rfl (by decide)).2.1,
   (emit_fatal_abandons_rest "x" [.fn ⟨1, false, .keep⟩] [.fn ⟨3, false, .keep⟩]
      ⟨2, true, .keep⟩ rfl (by decide)).1⟩

/-- Claim C5: `Emit` iterates the clone taken before the first
invocation, so whatever mutations the listeners perform on the live
registry (removing a later listener, appending a new one), the invoked
ids are exactly the callables of the snapshot: a listener present in
the snapshot is invoked even if it was removed from the live registry
mid-emission, and an id absent from the snapshot (e.g. one appended
mid-emission) is never invoked in this emission. -/
theorem emit_snapshot_isolation (e : String) (xs : List ArrElem)
    (hxs : ∀ v ∈ xs, noThrowElem v) :
    (EventEmitter.Emit (.objVal [(e, .arrVal xs)]) e).calls = callableIds xs ∧
    (∀ k ∈ callableIds xs, k ∈ (EventEmitter.Emit (.objVal [(e, .arrVal xs)]) e).calls) ∧
    (∀ n, n ∉ callableIds xs →
      n ∉ (EventEmitter.Emit (.objVal [(e, .arrVal xs)]) e).calls) := by
  have h := (emitLoop_nothrow xs xs hxs).2.1
  have hcalls : (EventEmitter.Emit (.objVal [(e, .arrVal xs)]) e).calls = callableIds xs := by
    simpa [EventEmitter.Emit, getEvent_single] using h
  exact ⟨hcalls, fun k hk => hcalls ▸ hk, fun n hn => hcalls ▸ hn⟩

theorem emit_snapshot_isolation_witness :
    2 ∈ (EventEmitter.Emit
      (.objVal [("x", .arrVal [.fn ⟨1, false, .removeId 2⟩, .fn ⟨2, false, .appendId 9 false⟩,
        .fn ⟨3, false, .keep⟩])]) "x").calls ∧
    9 ∉ (EventEmitter.Emit
      (.objVal [("x", .arrVal [.fn ⟨1, false, .removeId 2⟩, .fn ⟨2, false, .appendId 9 false⟩,
        .fn ⟨3, false, .keep⟩])]) "x").calls :=
  ⟨(emit_snapshot_isolation "x"
      [.fn ⟨1, false, .removeId 2⟩, .fn ⟨2, false, .appendId 9 false⟩, .fn ⟨3, false, .keep⟩]
      (by decide)).2.1 2 (by decide),
   (emit_snapshot_isolation "x"
      [.fn ⟨1, false, .removeId 2⟩, .fn ⟨2, false, .appendId 9 false⟩, .fn ⟨3, false, .keep⟩]
      (by decide)).2.2 9 (by decide)⟩

/-- Claim C10: when the stored value for the event is an array, `Emit`
falls through to `return true` even if the array is empty or holds no
callable element (`continue` skips non-callables), so the true result
does not imply that any listener ran: here the result is true while the
invoked-listener list is empty. -/
theorem emit_array_true_without_calls (e : String) (xs : List ArrElem)
    (hxs : ∀ v ∈ xs, v = ArrElem.nonFn) :
    (EventEmitter.Emit (.objVal [(e, .arrVal xs)]) e).result = true ∧
    (EventEmitter.Emit (.objVal [(e, .arrVal xs)]) e).calls = [] := by
  have h := emitLoop_allNonFn xs xs hxs
  refine ⟨?_, ?_⟩ <;> simp [EventEmitter.Emit, getEvent_single, h]

theorem emit_array_true_without_calls_witness :
    ((EventEmitter.Emit (.objVal [("x", .arrVal [])]) "x").result = true ∧
      (EventEmitter.Emit (.objVal [("x", .arrVal [])]) "x").calls = []) ∧
    ((EventEmitter.Emit (.objVal [("y", .arrVal [.nonFn, .nonFn])]) "y").result = true ∧
      (EventEmitter.Emit (.objVal [("y", .arrVal [.nonFn, .nonFn])]) "y").calls = []) :=
  ⟨emit_array_true_without_calls "x" [] (by decide),
   emit_array_true_without_calls "y" [.nonFn, .nonFn] (by decide)⟩

/-- Claim C3 (amended): re-entering `Active` clears and recaptures the
trace (`ClearStack` inside `RecordStack`), but performs no
Inactive-equivalent teardown beyond that: the reference count is bumped
a second time instead of first being restored, and when no source is
current the previous parent link is left in place rather than severed
(and when a source is current, the previous parent handle is overwritten
without being disposed). -/
theorem active_rearm_behavior (s : EventSource) (tr : List Frame)
    (cur : Option EventSource) :
    (s.Active tr cur).trace_ = some tr ∧
    (s.Active tr cur).refs_ = s.refs_ + 1 ∧
    (s.Active tr cur).parent_source_ =
      (match cur with | some c => some c | none => s.parent_source_) := by
  cases s with
  | root t r =>
    cases t <;> cases cur <;>
      simp [EventSource.Active, EventSource.Ref, EventSource.RecordStack,
        EventSource.ClearStack, EventSource.setTrace, EventSource.trace_,
        EventSource.refs_, EventSource.parent_source_]
  | withParent t p r =>
    cases t <;> cases cur <;>
      simp [EventSource.Active, EventSource.Ref, EventSource.RecordStack,
        EventSource.ClearStack, EventSource.setTrace, EventSource.trace_,
        EventSource.refs_, EventSource.parent_source_]

/-- Counterexample to claim C3 as stated: for an already-Active source
(trace captured, parent linked, refcount bumped once), `Active()` is not
equivalent to an Inactive-equivalent teardown followed by recapture —
the direct re-arm leaves the refcount at 2 and the old parent link in
place, while teardown-then-recapture yields refcount 1 and no parent
link (no source being current). -/
theorem active_rearm_cex :
    ((EventSource.withParent (some []) (.root none 0) 1).Active [] none
      ≠ ((EventSource.withParent (some []) (.root none 0) 1).Inactive).Active [] none) ∧
    ((EventSource.withParent (some []) (.root none 0) 1).Active [] none).refs_ = 2 ∧
    ((EventSource.withParent (some []) (.root none 0) 1).Active [] none).parent_source_
      = some (.root none 0) ∧
    (((EventSource.withParent (some []) (.root none 0) 1).Inactive).Active [] none).refs_ = 1 ∧
    (((EventSource.withParent (some []) (.root none 0) 1).Inactive).Active [] none).parent_source_
      = none := by
  decide

/-- Claim C9 (amended): `Inactive()` on an already-Idle source (trace
cleared, parent link severed) leaves the trace and parent-link fields
unchanged — `DeleteParent` and `ClearStack` are idempotent no-ops — but
it unconditionally calls `Unref`, decrementing the external reference
count by one and hence dropping it below the pre-Active baseline. -/
theorem inactive_idle_behavior (s : EventSource) (h1 : s.trace_ = none)
    (h2 : s.parent_source_ = none) :
    (s.Inactive).trace_ = none ∧ (s.Inactive).parent_source_ = none ∧
    (s.Inactive).refs_ = s.refs_ - 1 := by
  cases s with
  | root t r =>
    simp [EventSource.trace_] at h1
    subst h1
    simp [EventSource.Inactive, EventSource.DeleteParent, EventSource.ClearStack,
      EventSource.trace_, EventSource.Unref, EventSource.parent_source_,
      EventSource.refs_]
  | withParent t p r =>
    simp [EventSource.parent_source_] at h2

theorem inactive_idle_behavior_witness :
    ((EventSource.root none 5).Inactive).trace_ = none ∧
    ((EventSource.root none 5).Inactive).parent_source_ = none ∧
    ((EventSource.root none 5).Inactive).refs_ = 5 - 1 :=
  inactive_idle_behavior (.root none 5) rfl rfl

/-- Counterexample to claim C9 as stated: an Idle source at the
pre-Active baseline refcount 0, after one (redundant) `Inactive()`, has
external reference count -1 — strictly below the baseline, because the
`Unref` in `Inactive` is unconditional. -/
theorem inactive_idle_cex :
    ((EventSource.root none 0).Inactive).refs_ = -1 ∧ (-1 : Int) < 0 := by
  decide

/-- Claim C7: `_MakeCallback` requires `current_source == NULL` at entry
(the assertion aborts otherwise, without invoking the callee); during
the callee's execution `current_source` is the invoked source; and
`current_source` is restored to null unconditionally before any error
from the callee is handled — the state carried by the `fatal` outcome
(the state at `ReportException`/`PrintStack`) already has
`current_source = none`, exactly as the `ok` outcome does. -/
theorem mkcb_internal_discipline (sid : Nat) (cb : JsFn) (st : NodeState) :
    (st.current_source ≠ none →
      EventSource._MakeCallback sid cb st = ⟨false, none, .assertAbort⟩) ∧
    (st.current_source = none →
      (EventSource._MakeCallback sid cb st).calleeRan = true ∧
      (EventSource._MakeCallback sid cb st).observed = some sid ∧
      (cb.throws = true →
        (EventSource._MakeCallback sid cb st).out
          = .fatal { st with current_source := none }) ∧
      (cb.throws = false →
        (EventSource._MakeCallback sid cb st).out
          = .ok cb.retVal { st with current_source := none })) := by
  cases h : st.current_source <;> cases ht : cb.throws <;>
    simp [EventSource._MakeCallback, h, ht]

theorem mkcb_internal_discipline_witness :
    (EventSource._MakeCallback 3 ⟨10, false, 42⟩ ⟨none, none, false⟩).observed = some 3 :=
  ((mkcb_internal_discipline 3 ⟨10, false, 42⟩ ⟨none, none, false⟩).2 rfl).2.1

/-- Claim C2 (amended): in every `_MakeCallback` invocation whose callee
actually runs, the value of `current_source` immediately before entry is
necessarily null (the entry assertion admits nothing else), the source
observed inside the callback is the invoked source, and at every exit
the slot holds null again — equal to the value held before entry.  A
grandparent value can never be the restoration target: direct
synchronous nesting fails the entry assertion instead of pushing the
outer source. -/
theorem current_source_restore (sid : Nat) (cb : JsFn) (st : NodeState)
    (hran : (EventSource._MakeCallback sid cb st).calleeRan = true) :
    st.current_source = none ∧
    (EventSource._MakeCallback sid cb st).observed = some sid ∧
    (∀ st', ((EventSource._MakeCallback sid cb st).out).stateAfter = some st' →
      st'.current_source = st.current_source) := by
  cases h : st.current_source with
  | some x => simp [EventSource._MakeCallback, h] at hran
  | none =>
    cases ht : cb.throws <;>
      simp [EventSource._MakeCallback, h, ht, MCOut.stateAfter]

theorem current_source_restore_witness :
    (EventSource._MakeCallback 4 ⟨9, false, 1⟩ ⟨none, none, false⟩).observed = some 4 :=
  (current_source_restore 4 ⟨9, false, 1⟩ ⟨none, none, false⟩ rfl).2.1

/-- Counterexample to claim C2 as stated: a synchronously nested
`_MakeCallback` (entered while `current_source` is the non-null value 7
of an enclosing invocation) does not run its callback and does not
restore a grandparent value — the entry assertion
`assert(current_source == NULL)` fails, so the "deep synchronous
nesting in which the restored value is a grandparent source" described
by the claim cannot occur. -/
theorem nested_invoke_cex :
    (EventSource._MakeCallback 2 ⟨11, false, 5⟩ ⟨some 7, none, false⟩).calleeRan = false ∧
    (EventSource._MakeCallback 2 ⟨11, false, 5⟩ ⟨some 7, none, false⟩).out = .assertAbort := by
  decide

/-- Claim C1 (amended): when the wrapped callback is callable and both
it and the (cached) drain return normally, `MakeCallback` returns the
**drain invocation's** return value — `ret` is reassigned by
`ret = _MakeCallback(tick_cb, process, 0, NULL)` — not the original
callback's result. -/
theorem makeCallback_returns_drain_value (sid : Nat) (cb t : JsFn) (g : JsVal)
    (st : NodeState) (h1 : st.current_source = none) (h2 : cb.throws = false)
    (h3 : st.tick_cb = some t) (h4 : st.processCached = true) (h5 : t.throws = false) :
    (EventSource.MakeCallback sid (.fn cb) g st).out
      = .ok t.retVal { st with current_source := none } := by
  obtain ⟨cs, tc, pc⟩ := st
  simp only [NodeState.mk.injEq] at h1 h3 h4 ⊢
  subst h1; subst h3; subst h4
  simp [EventSource.MakeCallback, EventSource._MakeCallback, EventSource.drainStep,
    h2, h5]

theorem makeCallback_returns_drain_value_witness :
    (EventSource.MakeCallback 1 (.fn ⟨10, false, 42⟩) .nonFn
        ⟨none, some ⟨20, false, 7⟩, true⟩).out
      = .ok 7 ⟨none, some ⟨20, false, 7⟩, true⟩ :=
  makeCallback_returns_drain_value 1 ⟨10, false, 42⟩ ⟨20, false, 7⟩ .nonFn
    ⟨none, some ⟨20, false, 7⟩, true⟩ rfl rfl rfl rfl rfl

/-- Counterexample to claim C1 as stated: with the wrapped callback
returning 42 and the cached drain returning 7, `MakeCallback` returns 7
— the subsequent deferred-work-drain invocation's value — and not the
original callback's return value 42. -/
theorem makeCallback_ret_cex :
    (EventSource.MakeCallback 1 (.fn ⟨10, false, 42⟩) .nonFn
        ⟨none, some ⟨20, false, 7⟩, true⟩).out
      = .ok 7 ⟨none, some ⟨20, false, 7⟩, true⟩ ∧ (7 : Nat) ≠ 42 := by
  decide

/-- Claim C6: after a successful top-level callback invocation,
`MakeCallback` invokes the deferred-work drain exactly once with zero
arguments before returning.  The drain callable is resolved lazily: with
`tick_cb` and `process` already cached, no lookup happens; with an empty
cache, the global `process._tickCallback` lookup runs once and its
result is cached process-wide in the final state; and if the lookup does
not yield a function the process hits `assert(0)` without any drain
invocation. -/
theorem makeCallback_drain_once (sid : Nat) (cb : JsFn) (g : JsVal) (st : NodeState)
    (h1 : st.current_source = none) (h2 : cb.throws = false) :
    (∀ t, st.tick_cb = some t → st.processCached = true → t.throws = false →
      (EventSource.MakeCallback sid (.fn cb) g st).drainArgcs = [0] ∧
      (EventSource.MakeCallback sid (.fn cb) g st).lookedUp = false) ∧
    (∀ t, st.tick_cb = none → g = .fn t → t.throws = false →
      (EventSource.MakeCallback sid (.fn cb) g st).drainArgcs = [0] ∧
      (EventSource.MakeCallback sid (.fn cb) g st).lookedUp = true ∧
      (EventSource.MakeCallback sid (.fn cb) g st).out
        = .ok t.retVal
            { st with current_source := none, tick_cb := some t, processCached := true }) ∧
    (st.tick_cb = none → g = .nonFn →
      (EventSource.MakeCallback sid (.fn cb) g st).out
        = .tickAssertAbort { st with current_source := none, processCached := true } ∧
      (EventSource.MakeCallback sid (.fn cb) g st).drainArgcs = []) := by
  obtain ⟨cs, tc, pc⟩ := st
  simp only [NodeState.mk.injEq] at h1 ⊢
  subst h1
  refine ⟨?_, ?_, ?_⟩
  · intro t htc hpc ht
    subst htc; subst hpc
    simp [EventSource.MakeCallback, EventSource._MakeCallback, EventSource.drainStep,
      h2, ht]
  · intro t htc hg ht
    subst htc; subst hg
    simp [EventSource.MakeCallback, EventSource._MakeCallback, EventSource.drainStep,
      h2, ht]
  · intro htc hg
    subst htc; subst hg
    simp [EventSource.MakeCallback, EventSource._MakeCallback, h2]

theorem makeCallback_drain_once_witness :
    ((EventSource.MakeCallback 1 (.fn ⟨10, false, 42⟩) .nonFn
        ⟨none, some ⟨20, false, 7⟩, true⟩).drainArgcs = [0] ∧
      (EventSource.MakeCallback 1 (.fn ⟨10, false, 42⟩) .nonFn
        ⟨none, some ⟨20, false, 7⟩, true⟩).lookedUp = false) ∧
    ((EventSource.MakeCallback 1 (.fn ⟨10, false, 42⟩) (.fn ⟨20, false, 7⟩)
        ⟨none, none, false⟩).drainArgcs = [0] ∧
      (EventSource.MakeCallback 1 (.fn ⟨10, false, 42⟩) (.fn ⟨20, false, 7⟩)
        ⟨none, none, false⟩).lookedUp = true ∧
      (EventSource.MakeCallback 1 (.fn ⟨10, false, 42⟩) (.fn ⟨20, false, 7⟩)
        ⟨none, none, false⟩).out
        = .ok 7 ⟨none, some ⟨20, false, 7⟩, true⟩) :=
  ⟨(makeCallback_drain_once 1 ⟨10, false, 42⟩ .nonFn
      ⟨none, some ⟨20, false, 7⟩, true⟩ rfl rfl).1 ⟨20, false, 7⟩ rfl rfl rfl,
   (makeCallback_drain_once 1 ⟨10, false, 42⟩ (.fn ⟨20, false, 7⟩)
      ⟨none, none, false⟩ rfl rfl).2.1 ⟨20, false, 7⟩ rfl rfl rfl⟩

theorem countSections_append (a b : List OutLine) :
    countSections (a ++ b) = countSections a + countSections b := by
  simp [countSections, List.countP_append]

theorem countSections_frames (tr : List Frame) :
    countSections (tr.map
      (fun f => OutLine.frameLine f.functionName f.scriptName f.lineNumber f.column)) = 0 := by
  induction tr with
  | nil => simp [countSections]
  | cons f rest ih => simp [countSections, List.countP_cons] at ih ⊢

theorem countSections_section (tr : List Frame) :
    countSections (OutLine.separator :: tr.map
      (fun f => OutLine.frameLine f.functionName f.scriptName f.lineNumber f.column)) = 1 := by
  have h := countSections_frames tr
  simp [countSections, List.countP_cons] at h ⊢

theorem printStack_chain_sections (tr : List Frame) (limit : Nat) :
    ∀ n count, countSections (EventSource.PrintStack limit (mkChain tr n) count)
      = 1 + min n (limit - count) := by
  intro n
  induction n with
  | zero =>
    intro count
    simpa [mkChain, EventSource.PrintStack] using countSections_section tr
  | succ m ih =>
    intro count
    by_cases hcl : count < limit
    · have h1 : countSections (EventSource.PrintStack limit (mkChain tr (m + 1)) count)
          = 1 + (1 + min m (limit - (count + 1))) := by
        simp only [mkChain, EventSource.PrintStack, hcl, if_pos]
        rw [countSections_append, countSections_section, ih (count + 1)]
      rw [h1]
      omega
    · have h1 : countSections (EventSource.PrintStack limit (mkChain tr (m + 1)) count)
          = 1 := by
        simp only [mkChain, EventSource.PrintStack, hcl, if_neg, not_false_iff]
        exact countSections_section tr
      rw [h1]
      omega

/-- Claim C8: `PrintStack` is a no-op when no trace is recorded (for a
source with or without a parent link), and for a chain of `n + 1` linked
sources, each with a recorded trace, with `n + 1` exceeding the ancestor
limit, the innermost source's `PrintStack` (entered with `count = 0`)
emits exactly `limit + 1` stack sections — its own plus exactly the
ancestor limit's worth of ancestor sections, not one per ancestor. -/
theorem printStack_noop_and_bounded (tr : List Frame) (p : EventSource) (r : Int)
    (limit n : Nat) (hN : limit < n + 1) :
    EventSource.PrintStack limit (.root none r) 0 = [] ∧
    EventSource.PrintStack limit (.withParent none p r) 0 = [] ∧
    countSections (EventSource.PrintStack limit (mkChain tr n) 0) = limit + 1 := by
  refine ⟨rfl, rfl, ?_⟩
  rw [printStack_chain_sections]
  omega

theorem printStack_noop_and_bounded_witness :
    EventSource.PrintStack 2 (.root none 0) 0 = [] ∧
    countSections (EventSource.PrintStack 2 (mkChain [] 3) 0) = 3 :=
  ⟨(printStack_noop_and_bounded [] (.root none 0) 0 2 3 (by decide)).1,
   (printStack_noop_and_bounded [] (.root none 0) 0 2 3 (by decide)).2.2⟩

end NodeEvents
